import Mathlib

/-!
Shallow embedding of the visuAlysium core subsystems.

Source files:
- `main.py`: directory scanner (`ImageLoaderThread.run`), decode worker
  (`Worker.run`, `load_thumbnail`), thumbnail gallery (`MainWindow.load_images`,
  `MainWindow.add_thumbnail`), thread pool configuration.
- `ImageEditorWindow.py`: edit-history widget (`HistoryWidget.clearHistory`,
  `HistoryWidget.update_history_list`, `HistoryWidget.onItemDoubleClicked`,
  `HistoryWidget.contextMenuEvent`) and its callers
  (`ImageViewerWindow.show_new_image`, `ImageViewerWindow.cropping_confirmed`).

Opaque runtime values (QPixmap, QIcon) are represented by a type parameter.
Python exceptions are represented by `Except Unit`.
-/

/-! ### Directory scanner (`main.py`, `ImageLoaderThread.run`, line 55) -/

/-- One entry returned by `os.listdir`: a bare name plus whether the entry is a
subdirectory.  `os.listdir` lists both regular files and subdirectories and
exposes only the name; the code never queries the kind of the entry. -/
structure DirEntry where
  name : String
  isDir : Bool
  deriving DecidableEq, Repr

/-- Python `str.lower()` on a file name, modelled characterwise (the suffixes
compared against are ASCII, for which `Char.toLower` agrees with Python). -/
def py_lower (s : String) : String := String.mk (s.data.map Char.toLower)

/-- Python `str.endswith(suffix)`. -/
def py_endswith (s suffix : String) : Bool := List.isSuffixOf suffix.data s.data

/-- The suffix tuple from `file.lower().endswith(('.png', '.jpg', '.jpeg', '.gif', '.bmp'))`. -/
def image_suffixes : List String := [".png", ".jpg", ".jpeg", ".gif", ".bmp"]

/-- The per-name test of the list comprehension in `ImageLoaderThread.run`:
lowercase the whole name, then test it against the suffix tuple
(`str.endswith` with a tuple succeeds when any listed suffix matches). -/
def is_image_name (name : String) : Bool :=
  image_suffixes.any (fun suffix => py_endswith (py_lower name) suffix)

/-- The list comprehension in `ImageLoaderThread.run`: keep exactly the listed
entries whose name passes `is_image_name`.  The entry kind is never consulted. -/
def listdir_image_files (entries : List DirEntry) : List DirEntry :=
  entries.filter (fun e => is_image_name e.name)

/-- The scan behaviour as the specification words it (files only, subdirectories
excluded) — written from the spec's words for the refinement comparison, not
from the source. -/
def scan_per_spec (entries : List DirEntry) : List DirEntry :=
  entries.filter (fun e => is_image_name e.name && !e.isDir)

/-! ### Decode worker (`main.py`, `Worker.run` lines 22-33, `load_thumbnail` lines 36-42) -/

/-- `load_thumbnail`: the whole `try` body (QPixmap decode, scale, icon build)
is the external codec adapter, modelled as `codec`; raising inside the `try` is
`Except.error`.  The `except` branch returns `(None, image_path)`, so the
function itself never raises and the path is always preserved. -/
def load_thumbnail {α : Type} (codec : String → Except Unit α) (image_path : String) :
    Option α × String :=
  match codec image_path with
  | Except.ok icon => (some icon, image_path)
  | Except.error _ => (none, image_path)

/-- What one `Worker.run` invocation emits on its two signals. -/
structure WorkerEmission (α : Type) where
  result_emits : List (Option α × Option String)
  finished_emits : Nat
  deriving DecidableEq

/-- `Worker.run`: call the wrapped function; on a normal return emit the pair as
the `result` signal, on an exception emit `(None, None)`, and in both cases emit
`finished` exactly once (the `finally` block). -/
def worker_run {α : Type} (call : Except Unit (Option α × String)) : WorkerEmission α :=
  match call with
  | Except.ok (r1, r2) => { result_emits := [(r1, some r2)], finished_emits := 1 }
  | Except.error _ => { result_emits := [(none, none)], finished_emits := 1 }

/-- A worker whose wrapped function is `load_thumbnail`.  Because
`load_thumbnail` catches every exception internally, the call returns normally. -/
def run_worker_job {α : Type} (codec : String → Except Unit α) (image_path : String) :
    WorkerEmission α :=
  worker_run (Except.ok (load_thumbnail codec image_path))

/-- The `for` loop of `ImageLoaderThread.run`: one `Worker` per scanned path. -/
def run_generation_jobs {α : Type} (codec : String → Except Unit α) (paths : List String) :
    List (WorkerEmission α) :=
  paths.map (run_worker_job codec)

/-! ### Thumbnail gallery (`main.py`, `MainWindow.load_images` lines 155-161,
`MainWindow.add_thumbnail` lines 163-169) -/

/-- One row of the visible thumbnail list.  `generation` is a ghost annotation
recording which scan submitted the job that produced this result; the source
code stores no such tag and never inspects it. -/
structure GalleryItem (α : Type) where
  icon : Option α
  path : String
  generation : Nat
  deriving DecidableEq

/-- The gallery state: the visible list plus a ghost counter of how many scans
(`load_images` calls) have been started so far. -/
structure GalleryState (α : Type) where
  scans_started : Nat
  visible : List (GalleryItem α)
  deriving DecidableEq

/-- `MainWindow.load_images`: clears the visible list and starts a new scan
(ghost counter incremented).  No other gallery state exists in the source. -/
def load_images {α : Type} (s : GalleryState α) : GalleryState α :=
  { scans_started := s.scans_started + 1, visible := [] }

/-- `MainWindow.add_thumbnail`: unconditionally appends the received result to
the visible list.  The source performs no check of any kind on the result
before appending; the ghost `gen` tag is carried along unexamined. -/
def add_thumbnail {α : Type} (s : GalleryState α) (icon : Option α) (path : String)
    (gen : Nat) : GalleryState α :=
  { s with visible := s.visible ++ [{ icon := icon, path := path, generation := gen }] }

/-- Events observable at the gallery: a scan request, or the arrival of one
worker result tagged (ghost) with the scan that submitted it. -/
inductive GalleryEvent (α : Type) where
  | scan_request : GalleryEvent α
  | result_arrival (icon : Option α) (path : String) (gen : Nat) : GalleryEvent α
  deriving DecidableEq

def gallery_step {α : Type} (s : GalleryState α) : GalleryEvent α → GalleryState α
  | GalleryEvent.scan_request => load_images s
  | GalleryEvent.result_arrival icon path gen => add_thumbnail s icon path gen

def gallery_run {α : Type} (s : GalleryState α) (events : List (GalleryEvent α)) :
    GalleryState α :=
  events.foldl gallery_step s

def gallery_init {α : Type} : GalleryState α := { scans_started := 0, visible := [] }

/-- Trace well-formedness: a result tagged `gen` can only arrive once scan `gen`
has been started (`1 ≤ gen` and `gen` at most the number of scans started so
far).  Results of an old scan may arrive arbitrarily late: the pool never
cancels in-flight jobs. -/
def wf_events {α : Type} : Nat → List (GalleryEvent α) → Bool
  | _, [] => true
  | g, GalleryEvent.scan_request :: rest => wf_events (g + 1) rest
  | g, GalleryEvent.result_arrival _ _ gen :: rest =>
      decide (1 ≤ gen) && decide (gen ≤ g) && wf_events g rest

/-- A visible item produced by a scan older than the newest one. -/
def has_stale_item {α : Type} (s : GalleryState α) : Bool :=
  s.visible.any (fun item => decide (item.generation < s.scans_started))

/-- The gallery item built from one arriving `(icon, path, ghost generation)` triple. -/
def gallery_item_of {α : Type} (r : Option α × String × Nat) : GalleryItem α :=
  { icon := r.1, path := r.2.1, generation := r.2.2 }

/-- A run of pure result arrivals (no further scan in between). -/
def result_events {α : Type} (rs : List (Option α × String × Nat)) : List (GalleryEvent α) :=
  rs.map (fun r => GalleryEvent.result_arrival r.1 r.2.1 r.2.2)

/-- A concrete gallery trace: two scans are started, then a late result of the
first scan (ghost generation 1) arrives. -/
def stale_arrival_trace : List (GalleryEvent Nat) :=
  [GalleryEvent.scan_request, GalleryEvent.scan_request,
   GalleryEvent.result_arrival (some 0) "a.png" 1]

/-! ### Worker pool (`main.py`, `MainWindow.load_images` lines 157-158) -/

/-- Modelled from the spec: the thumbnail worker pool is `QThreadPool`, a PyQt
library class whose implementation is not under `src/`; `load_images` only
constructs it and calls `setMaxThreadCount(8)`.  Per the spec (§4.2, §5) the
pool runs at most `maxThreadCount` jobs simultaneously and queues the rest in
an unbounded FIFO. -/
structure ThreadPool (ι : Type) where
  maxThreadCount : Nat
  active : List ι
  queued : List ι
  deriving DecidableEq

/-- `QThreadPool.setMaxThreadCount`: reconfigures the concurrency cap. -/
def setMaxThreadCount {ι : Type} (p : ThreadPool ι) (n : Nat) : ThreadPool ι :=
  { p with maxThreadCount := n }

/-- Modelled from the spec: `QThreadPool.start` runs the job immediately when a
slot is free and otherwise queues it; it never blocks and never drops a job. -/
def pool_start {ι : Type} (p : ThreadPool ι) (j : ι) : ThreadPool ι :=
  if p.active.length < p.maxThreadCount then { p with active := j :: p.active }
  else { p with queued := p.queued ++ [j] }

/-- Modelled from the spec: one running job completes and a queued job, if any,
is promoted into the freed slot. -/
def pool_finish {ι : Type} (p : ThreadPool ι) : ThreadPool ι :=
  match p.active, p.queued with
  | _ :: rest, q :: qs => { p with active := q :: rest, queued := qs }
  | _ :: rest, [] => { p with active := rest }
  | [], _ => p

inductive PoolEvent (ι : Type) where
  | start (j : ι) : PoolEvent ι
  | finish : PoolEvent ι

def pool_step {ι : Type} (p : ThreadPool ι) : PoolEvent ι → ThreadPool ι
  | PoolEvent.start j => pool_start p j
  | PoolEvent.finish => pool_finish p

def pool_run {ι : Type} (p : ThreadPool ι) (events : List (PoolEvent ι)) : ThreadPool ι :=
  events.foldl pool_step p

/-- The pool as `MainWindow.load_images` configures it: a fresh pool (whatever
its construction default `idealThreadCount` was) immediately capped at 8. -/
def load_images_pool {ι : Type} (idealThreadCount : Nat) : ThreadPool ι :=
  setMaxThreadCount { maxThreadCount := idealThreadCount, active := [], queued := [] } 8

/-! ### Edit-history widget (`ImageEditorWindow.py`, `HistoryWidget` lines 49-118,
`ImageViewerWindow` lines 161-183) -/

/-- The two parallel sequences of `HistoryWidget`: the `QListWidget` rows
(modelled by their description strings) and the `original_pixmaps` list. -/
structure HistoryWidget (α : Type) where
  history_list_widget : List String
  original_pixmaps : List α
  deriving DecidableEq

/-- `HistoryWidget.clearHistory`: empties both sequences. -/
def clearHistory {α : Type} (s : HistoryWidget α) : HistoryWidget α :=
  { history_list_widget := [], original_pixmaps := [] }

/-- `HistoryWidget.update_history_list`: appends the pixmap to
`original_pixmaps` and adds a new item at the end of the list widget. -/
def update_history_list {α : Type} (s : HistoryWidget α) (pixmap : α)
    (description : String) : HistoryWidget α :=
  { history_list_widget := s.history_list_widget ++ [description],
    original_pixmaps := s.original_pixmaps ++ [pixmap] }

/-- `HistoryWidget.onItemDoubleClicked`: `row` is `-1` or a valid row of the
list widget; when not `-1`, emit `original_pixmaps[row]` (modelled with `get?`;
a valid row never misses, see the C10 theorem). -/
def onItemDoubleClicked {α : Type} (s : HistoryWidget α) (row : Int) : Option α :=
  if row ≠ -1 then s.original_pixmaps[row.toNat]? else none

/-- The `Show Image` branch of `HistoryWidget.contextMenuEvent`. -/
def context_menu_show {α : Type} (s : HistoryWidget α) (row : Int) : Option α :=
  if row ≠ -1 then s.original_pixmaps[row.toNat]? else none

/-- The `Delete Image` branch of `HistoryWidget.contextMenuEvent`:
for `row < 1` the delete action is disabled (`delete_action.setDisabled(True)`),
so nothing happens; otherwise `takeItem(row)`, `del original_pixmaps[row]`, then
emit the pixmap now at `row` if `row < count()` (the count after `takeItem`),
else the pixmap at `row - 1`.  The returned option is the emitted
`show_image_requested` payload. -/
def context_menu_delete {α : Type} (s : HistoryWidget α) (row : Int) :
    HistoryWidget α × Option α :=
  if row < 1 then (s, none)
  else
    let r : Nat := row.toNat
    let t : HistoryWidget α :=
      { history_list_widget := s.history_list_widget.eraseIdx r,
        original_pixmaps := s.original_pixmaps.eraseIdx r }
    (t, if r < t.history_list_widget.length then t.original_pixmaps[r]?
        else t.original_pixmaps[r - 1]?)

/-- `ImageViewerWindow.show_new_image`: clear the history, then append the newly
opened image with description `"Original Image"`. -/
def show_new_image {α : Type} (s : HistoryWidget α) (pixmap : α) : HistoryWidget α :=
  update_history_list (clearHistory s) pixmap "Original Image"

/-- `ImageViewerWindow.cropping_confirmed`: append the confirmed edit at the end
of the history, whatever entry is currently being viewed. -/
def cropping_confirmed {α : Type} (s : HistoryWidget α) (pixmap : α) : HistoryWidget α :=
  update_history_list s pixmap "Crop and rotate."

/-- Events that can reach the history widget.  Every code path that shows the
editor window (`main.py` lines 171-174 and 181-186) calls `show_new_image`
immediately, so a session trace always begins with `open_image`. -/
inductive EditorEvent (α : Type) where
  | open_image (pixmap : α) : EditorEvent α
  | crop_confirm (pixmap : α) : EditorEvent α
  | delete_row (row : Int) : EditorEvent α
  | view_row (row : Int) : EditorEvent α

def editor_step {α : Type} (s : HistoryWidget α) : EditorEvent α → HistoryWidget α
  | EditorEvent.open_image p => show_new_image s p
  | EditorEvent.crop_confirm p => cropping_confirmed s p
  | EditorEvent.delete_row r => (context_menu_delete s r).1
  | EditorEvent.view_row _ => s

def editor_run {α : Type} (s : HistoryWidget α) (events : List (EditorEvent α)) :
    HistoryWidget α :=
  events.foldl editor_step s

/-- A concrete three-entry history `[A, B, C]` with the descriptions the source
produces (pixmaps `10`, `11`, `12` standing for A, B, C). -/
def abc_history : HistoryWidget Nat :=
  { history_list_widget := ["Original Image", "Crop and rotate.", "Crop and rotate."],
    original_pixmaps := [10, 11, 12] }

/-! ### Helper lemmas -/

/-- A run of pure result arrivals appends every arriving item, in arrival
order, to the visible list, and starts no scan. -/
theorem gallery_run_result_events {α : Type} (rs : List (Option α × String × Nat))
    (s : GalleryState α) :
    gallery_run s (result_events rs) =
      { scans_started := s.scans_started,
        visible := s.visible ++ rs.map gallery_item_of } := by
  induction rs generalizing s with
  | nil => simp [gallery_run, result_events]
  | cons r rest ih =>
      simp only [result_events, List.map_cons, gallery_run, List.foldl_cons] at *
      rw [ih]
      simp [gallery_step, add_thumbnail, gallery_item_of]

/-- For a non-root row, the state after the delete branch erases exactly the
clicked row from both parallel sequences. -/
theorem context_menu_delete_fst {α : Type} (s : HistoryWidget α) (row : Nat)
    (h0 : 0 < row) :
    (context_menu_delete s (row : Int)).1 =
      { history_list_widget := s.history_list_widget.eraseIdx row,
        original_pixmaps := s.original_pixmaps.eraseIdx row } := by
  have hneg : ¬((row : Int) < 1) := by omega
  simp [context_menu_delete, hneg, Int.toNat_natCast]

/-- For a non-root row, the delete branch emits the pixmap now occupying the
deleted row if that row still exists, and the one before it otherwise. -/
theorem context_menu_delete_snd {α : Type} (s : HistoryWidget α) (row : Nat)
    (h0 : 0 < row) :
    (context_menu_delete s (row : Int)).2 =
      (if row < (s.history_list_widget.eraseIdx row).length
       then (s.original_pixmaps.eraseIdx row)[row]?
       else (s.original_pixmaps.eraseIdx row)[row - 1]?) := by
  have hneg : ¬((row : Int) < 1) := by omega
  simp [context_menu_delete, hneg, Int.toNat_natCast]

/-- Every editor event preserves the property that row 0 of the list widget
carries the description `"Original Image"`. -/
theorem editor_step_preserves_root {α : Type} (s : HistoryWidget α) (e : EditorEvent α)
    (h : s.history_list_widget[0]? = some "Original Image") :
    (editor_step s e).history_list_widget[0]? = some "Original Image" := by
  cases e with
  | open_image p => simp [editor_step, show_new_image, update_history_list, clearHistory]
  | crop_confirm p =>
      have hlen : 0 < s.history_list_widget.length := by
        rcases hl : s.history_list_widget with _ | ⟨a, l⟩
        · rw [hl] at h; simp at h
        · simp
      simp only [editor_step, cropping_confirmed, update_history_list]
      rw [List.getElem?_append]
      simp [hlen, h]
  | delete_row r =>
      by_cases hr : r < 1
      · simp [editor_step, context_menu_delete, hr, h]
      · have h0 : 0 < r.toNat := by omega
        have hcast : ((r.toNat : Int)) = r := by omega
        have := context_menu_delete_fst s r.toNat h0
        rw [hcast] at this
        simp only [editor_step, this]
        rw [List.getElem?_eraseIdx]
        simp [h0, h]
  | view_row r => simpa [editor_step] using h

/-- The root description survives any whole run of editor events. -/
theorem editor_run_preserves_root {α : Type} (events : List (EditorEvent α))
    (s : HistoryWidget α)
    (h : s.history_list_widget[0]? = some "Original Image") :
    (editor_run s events).history_list_widget[0]? = some "Original Image" := by
  induction events generalizing s with
  | nil => simpa [editor_run]
  | cons e rest ih =>
      simp only [editor_run, List.foldl_cons] at *
      exact ih _ (editor_step_preserves_root s e h)

/-- One pool event keeps the number of running jobs within the cap and never
touches the cap. -/
theorem pool_step_bound {ι : Type} (p : ThreadPool ι) (e : PoolEvent ι)
    (h : p.active.length ≤ p.maxThreadCount) :
    (pool_step p e).active.length ≤ (pool_step p e).maxThreadCount ∧
    (pool_step p e).maxThreadCount = p.maxThreadCount := by
  cases e with
  | start j =>
      simp only [pool_step, pool_start]
      split
      · next hlt => exact ⟨by simpa using hlt, rfl⟩
      · exact ⟨h, rfl⟩
  | finish =>
      simp only [pool_step, pool_finish]
      rcases ha : p.active with _ | ⟨a, rest⟩
      · exact ⟨by simpa [ha] using h, rfl⟩
      · rcases hq : p.queued with _ | ⟨q, qs⟩
        · refine ⟨?_, rfl⟩
          have := h
          rw [ha] at this
          simp at this ⊢
          omega
        · refine ⟨?_, rfl⟩
          have := h
          rw [ha] at this
          simpa using this

/-- A whole run of pool events keeps the number of running jobs within the cap. -/
theorem pool_run_bound {ι : Type} (events : List (PoolEvent ι)) (p : ThreadPool ι)
    (h : p.active.length ≤ p.maxThreadCount) :
    (pool_run p events).active.length ≤ (pool_run p events).maxThreadCount := by
  induction events generalizing p with
  | nil => simpa [pool_run]
  | cons e rest ih =>
      simp only [pool_run, List.foldl_cons] at *
      exact ih _ (pool_step_bound p e h).1

/-! ### Claim theorems -/

/-- C1, counterexample: the claim that no result of a superseded scan is ever
appended fails on the code.  After two scans have been started, a late result
of the first scan arrives (a well-formed arrival order, since the pool never
cancels in-flight jobs) and `add_thumbnail` appends it: the final visible list
holds an item of generation 1 while generation 2 is current. -/
theorem C1_counterexample :
    wf_events 0 stale_arrival_trace = true ∧
    has_stale_item (gallery_run gallery_init stale_arrival_trace) = true := by
  decide

/-- C1, amended: starting a new scan clears the visible thumbnail list, but
every result that arrives afterwards — stale or current alike — is appended to
the visible list in arrival order; `add_thumbnail` performs no generation
check, so clearing at scan start is the only staleness mitigation. -/
theorem C1_scan_clears_then_appends_all {α : Type} (s : GalleryState α)
    (rs : List (Option α × String × Nat)) :
    (gallery_step s GalleryEvent.scan_request).visible = [] ∧
    (gallery_run (gallery_step s GalleryEvent.scan_request) (result_events rs)).visible
      = rs.map gallery_item_of := by
  refine ⟨rfl, ?_⟩
  rw [gallery_run_result_events]
  simp [gallery_step, load_images]

/-- C2, counterexample: the claim that subdirectories are excluded fails on the
code.  A subdirectory named `holiday.png` passes the name-suffix filter of
`ImageLoaderThread.run` (the entry kind is never consulted), while the
behaviour worded by the spec excludes it. -/
theorem C2_counterexample :
    listdir_image_files [{ name := "holiday.png", isDir := true }] =
      [{ name := "holiday.png", isDir := true }] ∧
    scan_per_spec [{ name := "holiday.png", isDir := true }] = [] := by
  decide

/-- C2, amended: the scan returns exactly the directory entries — regular files
and subdirectories alike — whose lowercased name ends with one of `.png`,
`.jpg`, `.jpeg`, `.gif`, `.bmp`, keeping their listing order; entries with
non-matching names are excluded, but a subdirectory with a matching name is
included. -/
theorem C2_scan_keeps_matching_names (entries : List DirEntry) (e : DirEntry) :
    (e ∈ listdir_image_files entries ↔ e ∈ entries ∧ is_image_name e.name = true) ∧
    List.Sublist (listdir_image_files entries) entries := by
  constructor
  · simp [listdir_image_files, List.mem_filter]
  · exact List.filter_sublist _

/-- C3: every submitted job yields exactly one delivered result (and one
`finished` signal); a job whose decode fails still delivers a result carrying
the job's original path with no raster, and every sibling job still delivers
exactly one result — no exception crosses the worker boundary, since
`load_thumbnail` turns any decode exception into `(None, path)`. -/
theorem C3_one_result_per_job {α : Type} (codec : String → Except Unit α)
    (paths : List String) (i : Nat) (p : String)
    (hi : paths[i]? = some p) (hfail : codec p = Except.error ()) :
    (run_generation_jobs codec paths).length = paths.length ∧
    (run_generation_jobs codec paths)[i]? =
      some { result_emits := [(none, some p)], finished_emits := 1 } ∧
    ∀ w ∈ run_generation_jobs codec paths,
      w.result_emits.length = 1 ∧ w.finished_emits = 1 := by
  refine ⟨by simp [run_generation_jobs], ?_, ?_⟩
  · rw [run_generation_jobs, List.getElem?_map, hi]
    simp [run_worker_job, load_thumbnail, hfail, worker_run]
  · intro w hw
    rw [run_generation_jobs, List.mem_map] at hw
    obtain ⟨q, hq, rfl⟩ := hw
    rw [run_worker_job]
    cases hcq : codec q <;> simp [load_thumbnail, hcq, worker_run]

/-- C3, witness: a one-job generation whose decode fails still delivers exactly
one result, carrying the original path and no raster. -/
theorem C3_witness :
    ((["broken.bmp"] : List String)[0]? = some "broken.bmp") ∧
    ((run_generation_jobs (fun _ : String => (Except.error () : Except Unit Nat))
        ["broken.bmp"]).length = (["broken.bmp"] : List String).length ∧
      (run_generation_jobs (fun _ : String => (Except.error () : Except Unit Nat))
        ["broken.bmp"])[0]? =
        some { result_emits := [(none, some "broken.bmp")], finished_emits := 1 } ∧
      ∀ w ∈ run_generation_jobs (fun _ : String => (Except.error () : Except Unit Nat))
          ["broken.bmp"],
        w.result_emits.length = 1 ∧ w.finished_emits = 1) :=
  ⟨rfl, C3_one_result_per_job _ _ 0 "broken.bmp" rfl rfl⟩

/-- Component form of `context_menu_delete_fst` for the pixmap list. -/
theorem context_menu_delete_pixmaps {α : Type} (s : HistoryWidget α) (row : Nat)
    (h0 : 0 < row) :
    (context_menu_delete s (row : Int)).1.original_pixmaps
      = s.original_pixmaps.eraseIdx row := by
  rw [context_menu_delete_fst s row h0]

/-- Component form of `context_menu_delete_fst` for the list-widget rows. -/
theorem context_menu_delete_items {α : Type} (s : HistoryWidget α) (row : Nat)
    (h0 : 0 < row) :
    (context_menu_delete s (row : Int)).1.history_list_widget
      = s.history_list_widget.eraseIdx row := by
  rw [context_menu_delete_fst s row h0]

/-- C4: deleting a non-root entry erases exactly that row from both parallel
sequences, and the image then displayed is the entry that shifted into the
deleted position when that position still exists, otherwise the entry now
before it (the new last entry). -/
theorem C4_delete_shows_successor {α : Type} (s : HistoryWidget α) (row : Nat)
    (hlen : s.original_pixmaps.length = s.history_list_widget.length)
    (h0 : 0 < row) (hrow : row < s.history_list_widget.length) :
    (context_menu_delete s (row : Int)).1.original_pixmaps
        = s.original_pixmaps.eraseIdx row ∧
    (context_menu_delete s (row : Int)).1.history_list_widget
        = s.history_list_widget.eraseIdx row ∧
    (context_menu_delete s (row : Int)).2 =
      (if row < s.history_list_widget.length - 1 then s.original_pixmaps[row + 1]?
       else s.original_pixmaps[row - 1]?) := by
  refine ⟨context_menu_delete_pixmaps s row h0, context_menu_delete_items s row h0, ?_⟩
  rw [context_menu_delete_snd s row h0, List.length_eraseIdx]
  simp only [hrow, if_true]
  by_cases hc : row < s.history_list_widget.length - 1
  · rw [if_pos hc, if_pos hc, List.getElem?_eraseIdx]
    simp
  · rw [if_neg hc, if_neg hc, List.getElem?_eraseIdx]
    have hlt : row - 1 < row := by omega
    simp [hlt]

/-- C4, witness: in the history `[A, B, C]`, deleting the last entry (row 2)
displays B (pixmap 11). -/
theorem C4_witness :
    (abc_history.original_pixmaps.length = abc_history.history_list_widget.length ∧
      0 < 2 ∧ 2 < abc_history.history_list_widget.length) ∧
    (context_menu_delete abc_history ((2 : Nat) : Int)).2 = some 11 := by
  refine ⟨by decide, ?_⟩
  have h := C4_delete_shows_successor abc_history 2 (by decide) (by decide) (by decide)
  rw [h.2.2]
  decide

/-- C5: deleting a non-root entry of a log of length `L ≥ 2` leaves `L - 1`
entries, keeps every entry below the deleted row unchanged, and moves what was
at position `j + 1` into every position `j ≥ row`, in both parallel sequences. -/
theorem C5_delete_renumbers {α : Type} (s : HistoryWidget α) (row : Nat)
    (hlen : s.original_pixmaps.length = s.history_list_widget.length)
    (h0 : 0 < row) (hrow : row < s.original_pixmaps.length) :
    (context_menu_delete s (row : Int)).1.original_pixmaps.length
        = s.original_pixmaps.length - 1 ∧
    (context_menu_delete s (row : Int)).1.history_list_widget.length
        = s.history_list_widget.length - 1 ∧
    (∀ j, j < row →
      (context_menu_delete s (row : Int)).1.original_pixmaps[j]?
          = s.original_pixmaps[j]? ∧
      (context_menu_delete s (row : Int)).1.history_list_widget[j]?
          = s.history_list_widget[j]?) ∧
    (∀ j, row ≤ j →
      (context_menu_delete s (row : Int)).1.original_pixmaps[j]?
          = s.original_pixmaps[j + 1]? ∧
      (context_menu_delete s (row : Int)).1.history_list_widget[j]?
          = s.history_list_widget[j + 1]?) := by
  have hrow2 : row < s.history_list_widget.length := by omega
  rw [context_menu_delete_pixmaps s row h0, context_menu_delete_items s row h0]
  refine ⟨?_, ?_, ?_, ?_⟩
  · rw [List.length_eraseIdx]; simp [hrow]
  · rw [List.length_eraseIdx]; simp [hrow2]
  · intro j hj
    constructor <;> (rw [List.getElem?_eraseIdx]; simp [hj])
  · intro j hj
    have hnlt : ¬ (j < row) := by omega
    constructor <;> (rw [List.getElem?_eraseIdx]; simp [hnlt])

/-- C5, witness: deleting row 1 of `[A, B, C]` yields length 2, keeps A at
row 0 and moves C down to row 1. -/
theorem C5_witness :
    (abc_history.original_pixmaps.length = abc_history.history_list_widget.length ∧
      0 < 1 ∧ 1 < abc_history.original_pixmaps.length) ∧
    (context_menu_delete abc_history ((1 : Nat) : Int)).1.original_pixmaps.length = 2 ∧
    (context_menu_delete abc_history ((1 : Nat) : Int)).1.original_pixmaps[0]? = some 10 ∧
    (context_menu_delete abc_history ((1 : Nat) : Int)).1.original_pixmaps[1]? = some 12 := by
  refine ⟨by decide, ?_, ?_, ?_⟩
  · have h := C5_delete_renumbers abc_history 1 (by decide) (by decide) (by decide)
    rw [h.1]
    decide
  · have h := C5_delete_renumbers abc_history 1 (by decide) (by decide) (by decide)
    rw [(h.2.2.1 0 (by decide)).1]
    decide
  · have h := C5_delete_renumbers abc_history 1 (by decide) (by decide) (by decide)
    rw [(h.2.2.2 1 (by decide)).1]
    decide

/-- C6: a delete attempt on the root row (or on empty space, row `-1`) is
rejected — the delete action is disabled — and the widget state is completely
unchanged, with no image deletion or display change emitted. -/
theorem C6_root_delete_rejected {α : Type} (s : HistoryWidget α) (row : Int)
    (h : row < 1) :
    context_menu_delete s row = (s, none) := by
  simp [context_menu_delete, h]

/-- C6, witness: deleting row 0 of `[A, B, C]` leaves the log unchanged. -/
theorem C6_witness :
    ((0 : Int) < 1) ∧
    context_menu_delete abc_history 0 = (abc_history, none) :=
  ⟨by decide, C6_root_delete_rejected abc_history 0 (by decide)⟩

/-- C7: opening a brand-new image first clears the whole history and appends
one entry with description `"Original Image"` at row 0; consequently, whatever
editor events follow, the log stays non-empty and row 0 always carries the
description `"Original Image"`. -/
theorem C7_root_is_original_image {α : Type} (s0 : HistoryWidget α) (pixmap : α)
    (events : List (EditorEvent α)) :
    show_new_image s0 pixmap =
      { history_list_widget := ["Original Image"], original_pixmaps := [pixmap] } ∧
    (editor_run (show_new_image s0 pixmap) events).history_list_widget ≠ [] ∧
    (editor_run (show_new_image s0 pixmap) events).history_list_widget[0]?
      = some "Original Image" := by
  have hroot : (show_new_image s0 pixmap).history_list_widget[0]?
      = some "Original Image" := by
    simp [show_new_image, update_history_list, clearHistory]
  have hrun := editor_run_preserves_root events _ hroot
  refine ⟨by simp [show_new_image, update_history_list, clearHistory], ?_, hrun⟩
  intro hnil
  rw [hnil] at hrun
  simp at hrun

/-- A pool event never changes the configured cap. -/
theorem pool_step_max {ι : Type} (p : ThreadPool ι) (e : PoolEvent ι) :
    (pool_step p e).maxThreadCount = p.maxThreadCount := by
  rcases p with ⟨m, act, qd⟩
  cases e with
  | start j =>
      simp only [pool_step, pool_start]
      split <;> rfl
  | finish =>
      cases act <;> cases qd <;> rfl

/-- A whole run of pool events never changes the configured cap. -/
theorem pool_run_max {ι : Type} (events : List (PoolEvent ι)) (p : ThreadPool ι) :
    (pool_run p events).maxThreadCount = p.maxThreadCount := by
  induction events generalizing p with
  | nil => rfl
  | cons e rest ih =>
      simp only [pool_run, List.foldl_cons] at *
      rw [ih, pool_step_max]

/-- C8: the pool that `load_images` builds is capped at 8 simultaneously
running jobs — a bound every reachable pool state respects — the cap is
configurable through `setMaxThreadCount`, and the job queue is unbounded:
`start` always accepts the job (the job count grows by one, whatever the
queue length). -/
theorem C8_bounded_pool {ι : Type} (idealThreadCount : Nat)
    (events : List (PoolEvent ι)) (p : ThreadPool ι) (n : Nat) (j : ι) :
    (load_images_pool (ι := ι) idealThreadCount).maxThreadCount = 8 ∧
    (setMaxThreadCount p n).maxThreadCount = n ∧
    (pool_run (load_images_pool idealThreadCount) events).active.length ≤ 8 ∧
    (pool_step p (PoolEvent.start j)).active.length
        + (pool_step p (PoolEvent.start j)).queued.length
      = p.active.length + p.queued.length + 1 := by
  refine ⟨rfl, rfl, ?_, ?_⟩
  · have hb := pool_run_bound events (load_images_pool idealThreadCount)
      (by simp [load_images_pool, setMaxThreadCount])
    rw [pool_run_max] at hb
    simpa [load_images_pool, setMaxThreadCount] using hb
  · rcases p with ⟨m, act, qd⟩
    simp only [pool_step, pool_start]
    split <;> simp <;> omega

/-- C9: double-clicking (viewing) a history entry leaves the log untouched, so
a confirmed edit is appended after the last entry whatever entry is being
viewed: both sequences grow by exactly one at the tail, the new pixmap sits at
the new maximal index, and every pre-existing row is left in place — nothing
is replaced or truncated. -/
theorem C9_append_after_last {α : Type} (s : HistoryWidget α) (r : Int)
    (pixmap : α) (j : Nat) (hj : j < s.history_list_widget.length) :
    editor_step s (EditorEvent.view_row r) = s ∧
    (cropping_confirmed s pixmap).history_list_widget
        = s.history_list_widget ++ ["Crop and rotate."] ∧
    (cropping_confirmed s pixmap).original_pixmaps = s.original_pixmaps ++ [pixmap] ∧
    (cropping_confirmed s pixmap).original_pixmaps[s.original_pixmaps.length]?
        = some pixmap ∧
    (cropping_confirmed s pixmap).history_list_widget[j]? = s.history_list_widget[j]? := by
  refine ⟨rfl, rfl, rfl, ?_, ?_⟩
  · simp [cropping_confirmed, update_history_list, List.getElem?_concat_length]
  · simp only [cropping_confirmed, update_history_list]
    rw [List.getElem?_append]
    simp [hj]

/-- C9, witness: confirming an edit on `[A, B, C]` after viewing row 1 appends
the new pixmap at index 3 and keeps row 0 intact. -/
theorem C9_witness :
    ((0 : Nat) < abc_history.history_list_widget.length) ∧
    (editor_step abc_history (EditorEvent.view_row 1) = abc_history ∧
      (cropping_confirmed abc_history 13).history_list_widget
          = abc_history.history_list_widget ++ ["Crop and rotate."] ∧
      (cropping_confirmed abc_history 13).original_pixmaps
          = abc_history.original_pixmaps ++ [13] ∧
      (cropping_confirmed abc_history 13).original_pixmaps[abc_history.original_pixmaps.length]?
          = some 13 ∧
      (cropping_confirmed abc_history 13).history_list_widget[0]?
          = abc_history.history_list_widget[0]?) :=
  ⟨by decide, C9_append_after_last abc_history 1 13 0 (by decide)⟩

/-- C10: every widget operation keeps the list-widget rows and the stored
pixmap list at equal lengths, so a row index read from the widget — for a
double-click, or the successor row chosen after a deletion — always hits a
stored pixmap. -/
theorem C10_parallel_sequences {α : Type} (s : HistoryWidget α) (pixmap : α)
    (d : String) (row : Int) (r1 r : Nat)
    (hlen : s.history_list_widget.length = s.original_pixmaps.length)
    (hr1 : r1 < s.history_list_widget.length)
    (h0 : 0 < r) (hr : r < s.history_list_widget.length) :
    ((clearHistory s).history_list_widget.length
        = (clearHistory s).original_pixmaps.length) ∧
    ((update_history_list s pixmap d).history_list_widget.length
        = (update_history_list s pixmap d).original_pixmaps.length) ∧
    ((context_menu_delete s row).1.history_list_widget.length
        = (context_menu_delete s row).1.original_pixmaps.length) ∧
    (onItemDoubleClicked s (r1 : Int)).isSome ∧
    ((context_menu_delete s (r : Int)).2).isSome := by
  refine ⟨rfl, by simp [update_history_list, hlen], ?_, ?_, ?_⟩
  · by_cases hlt : row < 1
    · simp [context_menu_delete, hlt, hlen]
    · have h0q : 0 < row.toNat := by omega
      have hcast : ((row.toNat : Int)) = row := by omega
      have hpix := context_menu_delete_pixmaps s row.toNat h0q
      have hitems := context_menu_delete_items s row.toNat h0q
      rw [hcast] at hpix hitems
      rw [hpix, hitems, List.length_eraseIdx, List.length_eraseIdx, hlen]
  · have hne : ((r1 : Int)) ≠ -1 := by omega
    have hr1p : r1 < s.original_pixmaps.length := by omega
    simp [onItemDoubleClicked, hne, Int.toNat_natCast, List.getElem?_eq_getElem hr1p]
  · rw [context_menu_delete_snd s r h0]
    have hrp : r < s.original_pixmaps.length := by omega
    rw [List.length_eraseIdx]
    simp only [hr, if_true]
    by_cases hc : r < s.history_list_widget.length - 1
    · rw [if_pos hc]
      have : r < (s.original_pixmaps.eraseIdx r).length := by
        rw [List.length_eraseIdx]
        simp [hrp]
        omega
      simp [List.getElem?_eq_getElem this]
    · rw [if_neg hc]
      have : r - 1 < (s.original_pixmaps.eraseIdx r).length := by
        rw [List.length_eraseIdx]
        simp [hrp]
        omega
      simp [List.getElem?_eq_getElem this]

/-- C10, witness: on `[A, B, C]` an append, a delete of row 1, a double-click
on row 0 and the post-delete successor lookup all stay within the pixmap
list. -/
theorem C10_witness :
    (abc_history.history_list_widget.length = abc_history.original_pixmaps.length ∧
      0 < abc_history.history_list_widget.length ∧
      0 < 1 ∧ 1 < abc_history.history_list_widget.length) ∧
    ((clearHistory abc_history).history_list_widget.length
        = (clearHistory abc_history).original_pixmaps.length ∧
      (update_history_list abc_history 13 "Crop and rotate.").history_list_widget.length
          = (update_history_list abc_history 13 "Crop and rotate.").original_pixmaps.length ∧
      (context_menu_delete abc_history 1).1.history_list_widget.length
          = (context_menu_delete abc_history 1).1.original_pixmaps.length ∧
      (onItemDoubleClicked abc_history ((0 : Nat) : Int)).isSome ∧
      ((context_menu_delete abc_history ((1 : Nat) : Int)).2).isSome) :=
  ⟨by decide,
    C10_parallel_sequences abc_history 13 "Crop and rotate." 1 0 1
      (by decide) (by decide) (by decide) (by decide)⟩
